import Mathlib

/-!
Shallow embedding of the module-loading orchestration of
droidian/parse-modules-load (src/main.cpp and src/libmodprobe_ext.cpp).

External collaborators (the Dependency Resolver of modprobe.h: MakeCanonical,
GetDependencies, LoadListedModules, LoadModulesParallel, the configured-options
map) are modelled as function parameters; kernel syscalls and filesystem
probes are modelled by explicit result values passed in by the caller.
-/

/-- Result of the finit_module syscall as observed by Insmod:
return code 0, failure with errno == EEXIST, or any other failure. -/
inductive FinitModuleResult
  | ok
  | eexist
  | err
deriving DecidableEq

/-- Result of the delete_module syscall as observed by Rmmod. -/
inductive DeleteModuleResult
  | ok
  | err
deriving DecidableEq

/-- Result of stat-ing a dependency file in ModuleExists: stat failed,
stat succeeded on a regular file, or stat succeeded on a non-regular file. -/
inductive StatFileResult
  | statFail
  | regularFile
  | notRegularFile
deriving DecidableEq

/-- The loaded-module registry of a Modprobe instance:
module_loaded_paths_, module_loaded_ (canonical names) and module_count_
(src/libmodprobe_ext.cpp operates on these three fields). -/
structure ModprobeState where
  module_loaded_paths_ : Finset String
  module_loaded_ : Finset String
  module_count_ : Nat
deriving DecidableEq

/-- Output of Insmod: its boolean return value, the registry state after the
call, and the option string passed to finit_module (none when the open of the
module file failed, so that no kernel call was issued). -/
structure InsmodOut where
  ret : Bool
  st : ModprobeState
  kernel_options : Option String
deriving DecidableEq

/-- Embedding of Modprobe::Insmod (src/libmodprobe_ext.cpp lines 64-101).
`make_canonical` models MakeCanonical, `module_options_` models the lookup in
the configured-options map, `open_ok` models whether the O_RDONLY|O_NOFOLLOW
open of path_name succeeded, and `finit_result` models the outcome of the
finit_module syscall. -/
def Modprobe.Insmod (make_canonical : String → String)
    (module_options_ : String → Option String)
    (open_ok : Bool) (finit_result : FinitModuleResult)
    (st : ModprobeState) (path_name parameters : String) : InsmodOut :=
  if open_ok = false then
    ⟨false, st, none⟩
  else
    let canonical_name := make_canonical path_name
    let options0 :=
      match module_options_ canonical_name with
      | some o => o
      | none => ""
    let options := if parameters ≠ "" then options0 ++ " " ++ parameters else options0
    match finit_result with
    | FinitModuleResult.ok =>
      ⟨true,
        ⟨insert path_name st.module_loaded_paths_,
         insert canonical_name st.module_loaded_,
         st.module_count_ + 1⟩,
        some options⟩
    | FinitModuleResult.eexist =>
      ⟨true,
        ⟨insert path_name st.module_loaded_paths_,
         insert canonical_name st.module_loaded_,
         st.module_count_⟩,
        some options⟩
    | FinitModuleResult.err =>
      ⟨false, st, some options⟩

/-- Embedding of Modprobe::Rmmod (src/libmodprobe_ext.cpp lines 103-113).
`delete_result` models the outcome of the delete_module syscall. -/
def Modprobe.Rmmod (make_canonical : String → String)
    (delete_result : DeleteModuleResult)
    (st : ModprobeState) (module_name : String) : Bool × ModprobeState :=
  let canonical_name := make_canonical module_name
  match delete_result with
  | DeleteModuleResult.err => (false, st)
  | DeleteModuleResult.ok =>
    (true, { st with module_loaded_ := st.module_loaded_.erase canonical_name })

/-- Embedding of Modprobe::ModuleExists (src/libmodprobe_ext.cpp lines
115-135). `get_dependencies` models GetDependencies, `stat_file` the stat of
a dependency path together with the S_ISREG test. The registry state is
threaded through unchanged, as the source performs no registry write. -/
def Modprobe.ModuleExists (blocklist_enabled : Bool)
    (module_blocklist_ : Finset String)
    (get_dependencies : String → List String)
    (stat_file : String → StatFileResult)
    (st : ModprobeState) (module_name : String) : Bool × ModprobeState :=
  if blocklist_enabled = true ∧ module_name ∈ module_blocklist_ then (false, st)
  else
    match get_dependencies module_name with
    | [] => (false, st)
    | d :: _ =>
      match stat_file d with
      | StatFileResult.statFail => (false, st)
      | StatFileResult.notRegularFile => (false, st)
      | StatFileResult.regularFile => (true, st)

/-- Embedding of GetPageSizeSuffix (src/main.cpp lines 22-32), as a function
of the host page size returned by sysconf. -/
def GetPageSizeSuffix (page_size : Nat) : String :=
  if page_size ≤ 4096 then ""
  else "_" ++ toString (page_size / 1024) ++ "k"

/-- Embedding of GetModuleLoadList (src/main.cpp lines 34-46). `stat_ok`
models whether stat succeeds on a path (stat returning 0). -/
def GetModuleLoadList (stat_ok : String → Bool) (dir_path : String) : String :=
  if stat_ok (dir_path ++ "/" ++ "modules.load.recovery") then "modules.load.recovery"
  else "modules.load"

/-- Parse a maximal nonempty run of decimal digits, as scanf's digit scan. -/
def parseDigits (l : List Char) : Option (Nat × List Char) :=
  let ds := l.takeWhile Char.isDigit
  if ds = [] then none
  else some (ds.foldl (fun acc c => acc * 10 + (c.toNat - 48)) 0, l.dropWhile Char.isDigit)

/-- Parse one %d conversion: skip whitespace, optional sign, then digits. -/
def parseCInt (l : List Char) : Option (Int × List Char) :=
  let l1 := l.dropWhile Char.isWhitespace
  match l1 with
  | '-' :: rest =>
    match parseDigits rest with
    | some (n, r) => some (-(n : Int), r)
    | none => none
  | '+' :: rest =>
    match parseDigits rest with
    | some (n, r) => some ((n : Int), r)
    | none => none
  | _ =>
    match parseDigits l1 with
    | some (n, r) => some ((n : Int), r)
    | none => none

/-- Result of sscanf(s, "%d.%d", &a, &b) against int variables initialised to
zero: the two output variables (a variable keeps 0 when its conversion did not
happen) and the number of successful conversions returned by sscanf. -/
structure ScanDD where
  sc_major : Int
  sc_minor : Int
  matched : Nat
deriving DecidableEq

/-- Embedding of sscanf(s, "%d.%d", ...) as used at src/main.cpp lines 54
and 87: first %d, then the literal dot which must match the next character
exactly, then the second %d. -/
def sscanf_dd (s : String) : ScanDD :=
  match parseCInt s.data with
  | none => ⟨0, 0, 0⟩
  | some (a, r1) =>
    match r1 with
    | '.' :: r2 =>
      match parseCInt r2 with
      | none => ⟨a, 0, 1⟩
      | some (b, _) => ⟨a, b, 2⟩
    | _ => ⟨a, 0, 1⟩

/-- A readdir entry: its name and whether d_type == DT_DIR. -/
structure Dirent where
  d_name : String
  is_dir : Bool
deriving DecidableEq

/-- Embedding of the readdir loop of LoadKernelModules (src/main.cpp lines
67-92) that accumulates module_dirs. `page_size_suffix` is the value computed
once before the loop (line 65); the per-entry dir_page_size_suffix is the
result of the GetPageSizeSuffix() call of line 82, which takes no argument in
the source and hence is again the host's suffix computed from `page_size`. -/
def selectModuleDirsLoop (release : String) (page_size : Nat)
    (page_size_suffix : String) (major minor : Int) :
    List Dirent → List String → List String
  | [], module_dirs => module_dirs
  | e :: rest, module_dirs =>
    if e.is_dir = false then
      selectModuleDirsLoop release page_size page_size_suffix major minor rest module_dirs
    else if e.d_name = release ++ page_size_suffix then
      [e.d_name]
    else
      let dir_page_size_suffix := GetPageSizeSuffix page_size
      if dir_page_size_suffix ≠ "" ∧ dir_page_size_suffix ≠ page_size_suffix then
        selectModuleDirsLoop release page_size page_size_suffix major minor rest module_dirs
      else
        let scan := sscanf_dd e.d_name
        if scan.matched ≠ 2 ∨ scan.sc_major ≠ major ∨ scan.sc_minor ≠ minor then
          selectModuleDirsLoop release page_size page_size_suffix major minor rest module_dirs
        else
          selectModuleDirsLoop release page_size page_size_suffix major minor rest
            (module_dirs ++ [e.d_name])

/-- Lexicographic comparison on character lists, as std::string operator<. -/
def lexLt : List Char → List Char → Bool
  | [], [] => false
  | [], _ :: _ => true
  | _ :: _, [] => false
  | a :: as, b :: bs => if a < b then true else if b < a then false else lexLt as bs

/-- std::string operator< . -/
def strLt (a b : String) : Bool := lexLt a.data b.data

/-- Insert a string into an already sorted list, preserving ascending order
(lexicographic, as std::sort over std::string). -/
def insertSorted (s : String) : List String → List String
  | [] => [s]
  | x :: xs => if strLt x s then x :: insertSorted s xs else s :: x :: xs

/-- Sorting of module_dirs (src/main.cpp line 100), via insertion sort. -/
def sortStrings : List String → List String
  | [] => []
  | x :: xs => insertSorted x (sortStrings xs)

/-- Embedding of the sscanf of the running kernel release (src/main.cpp lines
53-56): major and minor default to 0 and keep the partially assigned values
when the parse is incomplete. -/
def parseReleaseMajorMinor (release : String) : Int × Int :=
  let scan := sscanf_dd release
  (scan.sc_major, scan.sc_minor)

/-- The candidate directory list LoadKernelModules builds from the base
directory entries: the readdir loop followed by the sort. -/
def selectModuleDirs (release : String) (page_size : Nat)
    (entries : List Dirent) : List String :=
  let mm := parseReleaseMajorMinor release
  let page_size_suffix := GetPageSizeSuffix page_size
  sortStrings (selectModuleDirsLoop release page_size page_size_suffix mm.1 mm.2 entries [])

/-- Environment of LoadKernelModules: `stat_ok` models stat for
GetModuleLoadList; `listed_result dir_path load_list` models constructing
Modprobe({dir_path}, load_list), calling LoadListedModules and reading
GetModuleCount, as the pair (return value, count); `parallel_result` models
the fallback Modprobe over the base directory, LoadModulesParallel and its
GetModuleCount, likewise as (return value, count). -/
structure LKMEnv where
  stat_ok : String → Bool
  listed_result : String → String → Bool × Nat
  parallel_result : Bool × Nat

/-- MODULE_BASE_DIR (src/main.cpp line 20). -/
def MODULE_BASE_DIR : String := "/lib/modules"

/-- One iteration body of the candidate loop (src/main.cpp lines 102-107):
the (LoadListedModules return value, GetModuleCount) pair for one candidate
directory name. -/
def dirLoadOutcome (env : LKMEnv) (module_dir : String) : Bool × Nat :=
  let dir_path := MODULE_BASE_DIR ++ "/" ++ module_dir
  env.listed_result dir_path (GetModuleLoadList env.stat_ok dir_path)

/-- Outcome of the candidate-directory loop: `result` is some retval when a
directory yielded a positive count (ending the loop), none otherwise; `ml` is
the final value of modules_loaded after the loop; `calls` counts the
LoadListedModules invocations performed. -/
structure RunDirsOut where
  result : Option Bool
  ml : Nat
  calls : Nat
deriving DecidableEq

/-- Embedding of the candidate loop of LoadKernelModules (src/main.cpp lines
102-112): modules_loaded is overwritten with each directory's count; a
positive count returns that directory's retval at once. -/
def runCandidateDirs (env : LKMEnv) : List String → Nat → RunDirsOut
  | [], ml => ⟨none, ml, 0⟩
  | module_dir :: rest, _ml =>
    let r := dirLoadOutcome env module_dir
    if r.2 > 0 then ⟨some r.1, r.2, 1⟩
    else
      let o := runCandidateDirs env rest r.2
      ⟨o.result, o.ml, o.calls + 1⟩

/-- Observable outcome of LoadKernelModules: its boolean return value, the
final value of the modules_loaded out-parameter, and how many ordered-list
loads and parallel fallback loads were invoked. -/
structure LKMOut where
  retval : Bool
  modules_loaded : Nat
  listed_calls : Nat
  parallel_calls : Nat
deriving DecidableEq

/-- Embedding of the tail of LoadKernelModules after the candidate loop
(src/main.cpp lines 102-122): either a candidate directory ended the loop
with a positive count, or the parallel fallback over the base directory runs
once and its count is written to modules_loaded; a zero fallback count still
returns true. -/
def finishLoad (env : LKMEnv) (r : RunDirsOut) : LKMOut :=
  match r.result with
  | some rv => ⟨rv, r.ml, r.calls, 0⟩
  | none =>
    if env.parallel_result.2 > 0 then
      ⟨env.parallel_result.1, env.parallel_result.2, r.calls, 1⟩
    else
      ⟨true, env.parallel_result.2, r.calls, 1⟩

/-- Embedding of LoadKernelModules (src/main.cpp lines 48-123). `base_dir` is
none when opendir on MODULE_BASE_DIR fails, otherwise the readdir entries in
readdir order; `modules_loaded` is the value of the caller's out-parameter on
entry. -/
def LoadKernelModules (env : LKMEnv) (base_dir : Option (List Dirent))
    (release : String) (page_size : Nat) (modules_loaded : Nat) : LKMOut :=
  match base_dir with
  | none => ⟨true, modules_loaded, 0, 0⟩
  | some entries =>
    finishLoad env
      (runCandidateDirs env (selectModuleDirs release page_size entries) modules_loaded)

/-- C1: evaluation of the code at the claim's example. With host page size
4096 (so the host page-size suffix is empty) and kernel release "6.1.0", the
selector RETAINS the directory "6.1.0_16k" instead of excluding it: the
per-entry suffix of src/main.cpp line 82 is GetPageSizeSuffix() of the host,
never parsed from the entry name, so the exclusion of line 83 compares the
host suffix with itself and can never fire, contradicting the comment at
lines 78-81 and the claimed behaviour. -/
theorem C1_suffix_check_never_excludes_eval :
    selectModuleDirs "6.1.0" 4096 [⟨"6.1.0_16k", true⟩] = ["6.1.0_16k"] := by decide

/-- C2 counterexample: for host release "6.1.0" with empty page-size suffix
and base entries "6.1.0-gki", "6.1", "5.4.0" (all directories), the candidate
list is not the claimed singleton "6.1.0-gki": no entry equals the release
"6.1.0" exactly, and "6.1" also carries the matching major.minor prefix 6.1,
so it is retained as well. -/
theorem C2_counterexample :
    selectModuleDirs "6.1.0" 4096
      [⟨"6.1.0-gki", true⟩, ⟨"6.1", true⟩, ⟨"5.4.0", true⟩] ≠ ["6.1.0-gki"] := by decide

/-- C2 amended: for host release "6.1.0" with empty page-size suffix and base
entries "6.1.0-gki", "6.1", "5.4.0", the candidate list is exactly
["6.1", "6.1.0-gki"] in sorted order: no release-specific exact match exists,
both entries with major.minor prefix 6.1 are retained, and "5.4.0" is
excluded by the major.minor comparison. -/
theorem C2_amended_candidates :
    selectModuleDirs "6.1.0" 4096
      [⟨"6.1.0-gki", true⟩, ⟨"6.1", true⟩, ⟨"5.4.0", true⟩] = ["6.1", "6.1.0-gki"] := by decide

/-- C4: when finit_module fails with EEXIST, Insmod returns true, inserts the
path into module_loaded_paths_ and the canonical name into module_loaded_,
and leaves module_count_ unchanged; a new insertion increments the count by
one and a subsequent already-resident insertion of the same module leaves the
count unchanged with both names still registered; the count never changes on
any other Insmod outcome nor on Rmmod. -/
theorem C4_insmod_eexist_idempotent (mc : String → String)
    (mo : String → Option String) (st : ModprobeState) (path parameters : String) :
    (Modprobe.Insmod mc mo true FinitModuleResult.eexist st path parameters).ret = true ∧
    (Modprobe.Insmod mc mo true FinitModuleResult.eexist st path parameters).st =
      ⟨insert path st.module_loaded_paths_, insert (mc path) st.module_loaded_,
        st.module_count_⟩ ∧
    (Modprobe.Insmod mc mo true FinitModuleResult.ok st path parameters).st.module_count_ =
      st.module_count_ + 1 ∧
    (Modprobe.Insmod mc mo true FinitModuleResult.eexist
        (Modprobe.Insmod mc mo true FinitModuleResult.ok st path parameters).st
        path parameters).st.module_count_ =
      (Modprobe.Insmod mc mo true FinitModuleResult.ok st path parameters).st.module_count_ ∧
    path ∈ (Modprobe.Insmod mc mo true FinitModuleResult.eexist
        (Modprobe.Insmod mc mo true FinitModuleResult.ok st path parameters).st
        path parameters).st.module_loaded_paths_ ∧
    mc path ∈ (Modprobe.Insmod mc mo true FinitModuleResult.eexist
        (Modprobe.Insmod mc mo true FinitModuleResult.ok st path parameters).st
        path parameters).st.module_loaded_ ∧
    (Modprobe.Insmod mc mo true FinitModuleResult.err st path parameters).st = st ∧
    (∀ f : FinitModuleResult,
      (Modprobe.Insmod mc mo false f st path parameters).st = st) ∧
    (∀ (d : DeleteModuleResult) (name : String),
      (Modprobe.Rmmod mc d st name).2.module_count_ = st.module_count_) := by
  refine ⟨rfl, rfl, rfl, rfl, ?_, ?_, rfl, fun f => rfl, fun d name => ?_⟩
  · simp [Modprobe.Insmod]
  · simp [Modprobe.Insmod]
  · cases d <;> rfl

/-- C6: the option string Insmod passes to finit_module is the configured
options of the module's canonical name followed, when the caller-supplied
parameters are nonempty, by a single space and those parameters; when the
parameters are empty the configured options are passed unmodified. -/
theorem C6_options_ordering (mc : String → String) (mo : String → Option String)
    (st : ModprobeState) (path : String) (finit : FinitModuleResult)
    (cfg parameters : String) (hcfg : mo (mc path) = some cfg) :
    (parameters ≠ "" →
      (Modprobe.Insmod mc mo true finit st path parameters).kernel_options =
        some (cfg ++ " " ++ parameters)) ∧
    (parameters = "" →
      (Modprobe.Insmod mc mo true finit st path parameters).kernel_options =
        some cfg) := by
  constructor <;> intro hp <;> cases finit <;> simp [Modprobe.Insmod, hcfg, hp]

/-- C6 witness: configured options "param=1" and runtime parameter
"param2=2" compose to exactly "param=1 param2=2". -/
theorem C6_options_ordering_witness :
    "param2=2" ≠ "" ∧
    (Modprobe.Insmod (fun s => s) (fun _ => some "param=1") true FinitModuleResult.ok
        ⟨∅, ∅, 0⟩ "wlan" "param2=2").kernel_options = some "param=1 param2=2" :=
  ⟨by decide,
    (C6_options_ordering (fun s => s) (fun _ => some "param=1") ⟨∅, ∅, 0⟩ "wlan"
      FinitModuleResult.ok "param=1" "param2=2" rfl).1 (by decide)⟩

/-- C7: when delete_module succeeds, Rmmod returns true and erases only the
canonical name from module_loaded_, leaving module_loaded_paths_ and
module_count_ unchanged; when it fails, Rmmod returns false and mutates
nothing. -/
theorem C7_rmmod_frame (mc : String → String) (st : ModprobeState) (name : String) :
    Modprobe.Rmmod mc DeleteModuleResult.ok st name =
      (true, ⟨st.module_loaded_paths_, st.module_loaded_.erase (mc name),
        st.module_count_⟩) ∧
    (Modprobe.Rmmod mc DeleteModuleResult.ok st name).2.module_loaded_paths_ =
      st.module_loaded_paths_ ∧
    (Modprobe.Rmmod mc DeleteModuleResult.ok st name).2.module_count_ =
      st.module_count_ ∧
    Modprobe.Rmmod mc DeleteModuleResult.err st name = (false, st) :=
  ⟨rfl, rfl, rfl, rfl⟩

/-- C9: when opendir on the module base directory fails, LoadKernelModules
returns true at once: no ordered-list load and no parallel load is attempted
and the caller's modules_loaded out-parameter keeps its value. -/
theorem C9_unopenable_base_dir (env : LKMEnv) (release : String) (page_size : Nat)
    (modules_loaded : Nat) :
    LoadKernelModules env none release page_size modules_loaded =
      ⟨true, modules_loaded, 0, 0⟩ := rfl

/-- C10: when the canonical name has no configured options and the
caller-supplied parameters are nonempty, the option string passed to
finit_module is a single space followed by the parameters, not the
parameters alone. -/
theorem C10_leading_space (mc : String → String) (mo : String → Option String)
    (st : ModprobeState) (path parameters : String) (finit : FinitModuleResult)
    (hnone : mo (mc path) = none) (hp : parameters ≠ "") :
    (Modprobe.Insmod mc mo true finit st path parameters).kernel_options =
      some (" " ++ parameters) := by
  cases finit <;> simp [Modprobe.Insmod, hnone, hp]

/-- C10 witness: with no configured options and runtime parameter
"param2=2", the string issued to the kernel is " param2=2", carrying the
leading space. -/
theorem C10_leading_space_witness :
    "param2=2" ≠ "" ∧
    (Modprobe.Insmod (fun s => s) (fun _ => none) true FinitModuleResult.ok
        ⟨∅, ∅, 0⟩ "wlan" "param2=2").kernel_options = some " param2=2" :=
  ⟨by decide,
    C10_leading_space (fun s => s) (fun _ => none) ⟨∅, ∅, 0⟩ "wlan" "param2=2"
      FinitModuleResult.ok rfl (by decide)⟩

/-- The readdir loop yields exactly the release-specific singleton whenever
some directory entry matches `release ++ page-size-suffix` exactly, whatever
candidates were accumulated before and whatever entries follow. -/
theorem selectLoop_release_specific (release : String) (page_size : Nat)
    (major minor : Int) (entries : List Dirent) :
    ∀ acc : List String,
      (∃ e ∈ entries, e.is_dir = true ∧ e.d_name = release ++ GetPageSizeSuffix page_size) →
      selectModuleDirsLoop release page_size (GetPageSizeSuffix page_size) major minor
        entries acc = [release ++ GetPageSizeSuffix page_size] := by
  induction entries with
  | nil => intro acc h; simp at h
  | cons e rest ih =>
    intro acc h
    rcases h with ⟨e', he', hdir, hname⟩
    rcases List.mem_cons.mp he' with rfl | hmem
    · simp [selectModuleDirsLoop, hdir, hname]
    · have htarget : ∃ x ∈ rest, x.is_dir = true ∧
          x.d_name = release ++ GetPageSizeSuffix page_size := ⟨e', hmem, hdir, hname⟩
      simp only [selectModuleDirsLoop]
      split_ifs with h1 h2 h3 h4
      · exact ih acc htarget
      · rw [h2]
      · exact ih acc htarget
      · exact ih acc htarget
      · exact ih (acc ++ [e.d_name]) htarget

/-- C3: whenever some base-directory entry is a directory whose name equals
the running kernel release concatenated with the host page-size suffix, the
candidate list of LoadKernelModules is exactly that single name: earlier
accumulated candidates are discarded and later entries are never examined. -/
theorem C3_release_specific_short_circuit (release : String) (page_size : Nat)
    (entries : List Dirent)
    (h : ∃ e ∈ entries, e.is_dir = true ∧
        e.d_name = release ++ GetPageSizeSuffix page_size) :
    selectModuleDirs release page_size entries =
      [release ++ GetPageSizeSuffix page_size] := by
  show sortStrings (selectModuleDirsLoop release page_size (GetPageSizeSuffix page_size)
    (parseReleaseMajorMinor release).1 (parseReleaseMajorMinor release).2 entries []) = _
  rw [selectLoop_release_specific release page_size (parseReleaseMajorMinor release).1
    (parseReleaseMajorMinor release).2 entries [] h]
  rfl

/-- C3 witness: with release "6.1.0" and page size 4096, a base directory
holding exactly the directory "6.1.0" yields the singleton candidate list. -/
theorem C3_release_specific_witness :
    (∃ e ∈ [Dirent.mk "6.1.0" true], e.is_dir = true ∧
        e.d_name = "6.1.0" ++ GetPageSizeSuffix 4096) ∧
    selectModuleDirs "6.1.0" 4096 [Dirent.mk "6.1.0" true] =
      ["6.1.0" ++ GetPageSizeSuffix 4096] :=
  ⟨by decide,
    C3_release_specific_short_circuit "6.1.0" 4096 [Dirent.mk "6.1.0" true] (by decide)⟩

/-- C8: a blocklisted name (with enforcement enabled) makes ModuleExists
return false for every dependency function, so the dependency list is never
consulted; an empty dependency list, a failing stat on the first dependency,
and a non-regular first dependency each make it return false; and the
registry state is returned unchanged in every case. -/
theorem C8_module_exists_checks (be : Bool) (bl : Finset String) (st : ModprobeState)
    (name : String) :
    ((be = true ∧ name ∈ bl) →
      ∀ (deps : String → List String) (stat_file : String → StatFileResult),
        (Modprobe.ModuleExists be bl deps stat_file st name).1 = false) ∧
    (∀ (deps : String → List String) (stat_file : String → StatFileResult),
      deps name = [] →
      (Modprobe.ModuleExists be bl deps stat_file st name).1 = false) ∧
    (∀ (deps : String → List String) (stat_file : String → StatFileResult)
        (d : String) (rest : List String),
      deps name = d :: rest → stat_file d ≠ StatFileResult.regularFile →
      (Modprobe.ModuleExists be bl deps stat_file st name).1 = false) ∧
    (∀ (deps : String → List String) (stat_file : String → StatFileResult),
      (Modprobe.ModuleExists be bl deps stat_file st name).2 = st) := by
  refine ⟨?_, ?_, ?_, ?_⟩
  · intro hb deps stat_file
    simp [Modprobe.ModuleExists, hb.1, hb.2]
  · intro deps stat_file hdeps
    by_cases hb : be = true ∧ name ∈ bl
    · simp [Modprobe.ModuleExists, hb]
    · simp [Modprobe.ModuleExists, hb, hdeps]
  · intro deps stat_file d rest hdeps hs
    by_cases hb : be = true ∧ name ∈ bl
    · simp [Modprobe.ModuleExists, hb]
    · cases hsf : stat_file d with
      | statFail => simp [Modprobe.ModuleExists, hb, hdeps, hsf]
      | regularFile => exact absurd hsf hs
      | notRegularFile => simp [Modprobe.ModuleExists, hb, hdeps, hsf]
  · intro deps stat_file
    by_cases hb : be = true ∧ name ∈ bl
    · simp [Modprobe.ModuleExists, hb]
    · rcases hdeps : deps name with _ | ⟨d, rest⟩
      · simp [Modprobe.ModuleExists, hb, hdeps]
      · cases hsf : stat_file d <;> simp [Modprobe.ModuleExists, hb, hdeps, hsf]

/-- C8 witness: with enforcement enabled and "badmod" blocklisted,
ModuleExists returns false even though the dependency function would offer a
regular backing file, and the registry is unchanged. -/
theorem C8_module_exists_witness :
    (true = true ∧ "badmod" ∈ ({"badmod"} : Finset String)) ∧
    (Modprobe.ModuleExists true {"badmod"} (fun _ => ["mod.ko"])
      (fun _ => StatFileResult.regularFile) ⟨∅, ∅, 0⟩ "badmod").1 = false :=
  ⟨by decide,
    (C8_module_exists_checks true {"badmod"} ⟨∅, ∅, 0⟩ "badmod").1 (by decide) _ _⟩

/-- When every directory in the candidate list yields a zero module count,
the candidate loop ends with no definitive directory. -/
theorem runCandidateDirs_result_none (env : LKMEnv) (dirs : List String) :
    ∀ ml : Nat, (∀ d ∈ dirs, (dirLoadOutcome env d).2 = 0) →
      (runCandidateDirs env dirs ml).result = none := by
  induction dirs with
  | nil => intro ml _; rfl
  | cons d rest ih =>
    intro ml h
    have hd := h d (List.mem_cons_self d rest)
    simp only [runCandidateDirs, hd]
    simp only [gt_iff_lt, lt_irrefl, if_false]
    exact ih _ (fun x hx => h x (List.mem_cons_of_mem d hx))

/-- When some directory in the candidate list yields a positive module count,
the candidate loop ends with a definitive directory. -/
theorem runCandidateDirs_result_some (env : LKMEnv) (dirs : List String) :
    ∀ ml : Nat, (∃ d ∈ dirs, 0 < (dirLoadOutcome env d).2) →
      ∃ b, (runCandidateDirs env dirs ml).result = some b := by
  induction dirs with
  | nil => intro ml h; simp at h
  | cons d rest ih =>
    intro ml h
    by_cases hd : 0 < (dirLoadOutcome env d).2
    · exact ⟨(dirLoadOutcome env d).1, by simp [runCandidateDirs, hd]⟩
    · rcases h with ⟨d', hd', hpos⟩
      rcases List.mem_cons.mp hd' with rfl | hmem
      · exact absurd hpos hd
      · obtain ⟨b, hb⟩ := ih ((dirLoadOutcome env d).2) ⟨d', hmem, hpos⟩
        exact ⟨b, by simp [runCandidateDirs, hd, hb]⟩

/-- The candidate loop stops at the first directory with a positive count:
its retval and count are returned, one LoadListedModules call per directory
examined so far. -/
theorem runCandidateDirs_first_positive (env : LKMEnv) (pre : List String) :
    ∀ (d : String) (post : List String) (ml : Nat),
      (∀ p ∈ pre, (dirLoadOutcome env p).2 = 0) → 0 < (dirLoadOutcome env d).2 →
      runCandidateDirs env (pre ++ d :: post) ml =
        ⟨some (dirLoadOutcome env d).1, (dirLoadOutcome env d).2, pre.length + 1⟩ := by
  induction pre with
  | nil =>
    intro d post ml _ hpos
    simp [runCandidateDirs, hpos]
  | cons p pre ih =>
    intro d post ml hzero hpos
    have hp := hzero p (List.mem_cons_self p pre)
    simp only [List.cons_append, runCandidateDirs, hp]
    simp only [gt_iff_lt, lt_irrefl, if_false]
    simp only [List.append_eq]
    rw [ih d post 0 (fun x hx => hzero x (List.mem_cons_of_mem p hx)) hpos]
    rfl

/-- After a candidate loop with no definitive directory, the tail of
LoadKernelModules invokes the parallel fallback once, reports its count, and
turns a zero fallback count into a true return. -/
theorem finishLoad_of_none (env : LKMEnv) (r : RunDirsOut) (h : r.result = none) :
    (finishLoad env r).parallel_calls = 1 ∧
    (finishLoad env r).modules_loaded = env.parallel_result.2 ∧
    (env.parallel_result.2 = 0 → (finishLoad env r).retval = true) := by
  unfold finishLoad
  rw [h]
  by_cases hp : env.parallel_result.2 > 0
  · refine ⟨by simp [hp], by simp [hp], ?_⟩
    intro h0
    omega
  · simp [hp]

/-- C5: in LoadKernelModules, when every candidate directory's ordered-list
load yields a zero count, the parallel fallback over the base directory runs
exactly once, its count is written to modules_loaded whatever its value, and
a zero fallback count is reported as a true return; conversely a candidate
directory with a positive count prevents the fallback, and the first such
directory ends the iteration with its retval and count. -/
theorem C5_fallback_trigger (env : LKMEnv) (entries : List Dirent) (release : String)
    (page_size : Nat) (ml0 : Nat) :
    ((∀ d ∈ selectModuleDirs release page_size entries, (dirLoadOutcome env d).2 = 0) →
      (LoadKernelModules env (some entries) release page_size ml0).parallel_calls = 1 ∧
      (LoadKernelModules env (some entries) release page_size ml0).modules_loaded =
        env.parallel_result.2 ∧
      (env.parallel_result.2 = 0 →
        (LoadKernelModules env (some entries) release page_size ml0).retval = true)) ∧
    ((∃ d ∈ selectModuleDirs release page_size entries, 0 < (dirLoadOutcome env d).2) →
      (LoadKernelModules env (some entries) release page_size ml0).parallel_calls = 0) ∧
    (∀ (pre : List String) (d : String) (post : List String),
      selectModuleDirs release page_size entries = pre ++ d :: post →
      (∀ p ∈ pre, (dirLoadOutcome env p).2 = 0) → 0 < (dirLoadOutcome env d).2 →
      LoadKernelModules env (some entries) release page_size ml0 =
        ⟨(dirLoadOutcome env d).1, (dirLoadOutcome env d).2, pre.length + 1, 0⟩) := by
  refine ⟨?_, ?_, ?_⟩
  · intro h
    exact finishLoad_of_none env
      (runCandidateDirs env (selectModuleDirs release page_size entries) ml0)
      (runCandidateDirs_result_none env _ ml0 h)
  · intro h
    obtain ⟨b, hb⟩ := runCandidateDirs_result_some env _ ml0 h
    show (finishLoad env
      (runCandidateDirs env (selectModuleDirs release page_size entries) ml0)).parallel_calls = 0
    unfold finishLoad
    rw [hb]
  · intro pre d post heq hzero hpos
    show finishLoad env
      (runCandidateDirs env (selectModuleDirs release page_size entries) ml0) = _
    rw [heq, runCandidateDirs_first_positive env pre d post ml0 hzero hpos]
    rfl

/-- A concrete environment for the C5 witness: stat always fails (so the
load list is modules.load), every ordered-list load reports (true, 0), and
the parallel fallback reports (true, 0). -/
def envAllZero : LKMEnv := ⟨fun _ => false, fun _ _ => (true, 0), (true, 0)⟩

/-- C5 witness: with one version-matched candidate directory "6.1" whose
ordered-list load yields zero modules, the fallback runs exactly once, its
zero count is reported, and the function returns true. -/
theorem C5_fallback_trigger_witness :
    (∀ d ∈ selectModuleDirs "6.1.0" 4096 [Dirent.mk "6.1" true],
      (dirLoadOutcome envAllZero d).2 = 0) ∧
    (LoadKernelModules envAllZero (some [Dirent.mk "6.1" true]) "6.1.0" 4096 7).parallel_calls
      = 1 ∧
    (LoadKernelModules envAllZero (some [Dirent.mk "6.1" true]) "6.1.0" 4096 7).modules_loaded
      = envAllZero.parallel_result.2 ∧
    (envAllZero.parallel_result.2 = 0 →
      (LoadKernelModules envAllZero (some [Dirent.mk "6.1" true]) "6.1.0" 4096 7).retval
        = true) :=
  ⟨by decide,
    (C5_fallback_trigger envAllZero [Dirent.mk "6.1" true] "6.1.0" 4096 7).1 (by decide)⟩
